import Mathlib

/-!
Verification development for the gke-managed-certs e2e test harness
(`hack/e2e.py`, `hack/utils/{utils,command,kubectl,dns}.py`).

The Python sources are shallowly embedded below.  Effectful calls are
modelled by explicit inputs (an observation stream for each repeated
query, a randomness stream for `random.choice`) and by returning the
trace of external commands / events the code would issue.
-/

namespace Utils

/-- Trace of one `backoff` invocation (`hack/utils/utils.py`):
whether the condition was met, how many times `action` was called,
and the list of sleep durations (seconds) in order. -/
structure BackoffTrace where
  met : Bool
  calls : Nat
  sleeps : List Nat
deriving Repr, DecidableEq

/-- Embeds the `for attempt in range(max_attempts)` loop of `backoff`.
`fuel` is the number of remaining loop iterations, `attempt` the index of
the next call; `action` is modelled as the stream of its successive
return values.  On an unmet condition the loop prints, sleeps `timeout`
seconds and continues — including after the final iteration. -/
def backoffAux (action : Nat → α) (condition : α → Bool) (timeout : Nat) :
    Nat → Nat → BackoffTrace
  | 0, _ => ⟨false, 0, []⟩
  | fuel + 1, attempt =>
    if condition (action attempt) then ⟨true, 1, []⟩
    else
      let t := backoffAux action condition timeout fuel (attempt + 1)
      ⟨t.met, t.calls + 1, timeout :: t.sleeps⟩

/-- `backoff(action, condition, max_attempts=30)` from
`hack/utils/utils.py`: the local `timeout` is the constant `30`.
The Python default `max_attempts=30` is passed explicitly at call sites. -/
def backoff (action : Nat → α) (condition : α → Bool) (max_attempts : Nat) :
    BackoffTrace :=
  backoffAux action condition 30 max_attempts 0

end Utils

namespace Command

/-- `call_get_out(command, info=None)` from `hack/utils/command.py`.
The external process is modelled by its captured standard output and its
exit status (`returncode`).  The function splits the output on the
newline character (Python's `.split("\n")`, embedded as `List.splitOn`
on the character list, which keeps empty pieces exactly like Python),
drops the empty lines (`filter(None, ...)`), and reports success iff
the exit status is zero. -/
def call_get_out (stdout : String) (returncode : Int) : List String × Bool :=
  (((stdout.data.splitOn '\n').map (fun line => (⟨line⟩ : String))).filter
      (fun line => line != ""),
    returncode == 0)

end Command

namespace Kubectl

/-- `KUBECTL_NAME` from `hack/utils/kubectl.py`: `kubectl1_11` when the
Prow service-account file exists, plain `kubectl` otherwise. -/
def kubectl_name (prow_test : Bool) : String :=
  if prow_test then "kubectl1_11" else "kubectl"

/-- The command line issued by `kubectl.call(com)`:
`"{KUBECTL_NAME} {com}"`. -/
def call_cmd (prow_test : Bool) (com : String) : String :=
  kubectl_name prow_test ++ " " ++ com

/-- The command lines issued by `kubectl.delete(script_root, *file_names)`:
one `delete -f {script_root}/deploy/{file_name} --ignore-not-found=true`
call per file, in order. -/
def delete_cmds (prow_test : Bool) (script_root : String)
    (file_names : List String) : List String :=
  file_names.map (fun file_name =>
    call_cmd prow_test
      ("delete -f " ++ script_root ++ "/deploy/" ++ file_name ++
        " --ignore-not-found=true"))

end Kubectl

namespace E2E

/-- The delete command lines issued by `delete_ssl_certificates` in
`hack/e2e.py`, given the URIs returned by the `ssl-certificates list`
query: one `gcloud compute ssl-certificates delete` per listed URI. -/
def delete_ssl_certificates_cmds (ssl_certificates : List String) : List String :=
  ssl_certificates.map (fun uri =>
    "echo y | gcloud compute ssl-certificates delete " ++ uri)

/-- The delete command lines issued by `delete_managed_certificates` in
`hack/e2e.py`, given the listing result `(names, success)`:
one `kubectl delete mcrt {name}` per listed name when the listing
succeeded, nothing otherwise. -/
def delete_managed_certificates_cmds (prow_test : Bool)
    (names : List String) (success : Bool) : List String :=
  if success then
    names.map (fun name => Kubectl.call_cmd prow_test ("delete mcrt " ++ name))
  else []

/-- The delete command lines issued by `delete_firewall_rules` in
`hack/e2e.py`, given the URIs returned by the firewall-rule listing:
one `gcloud compute firewall-rules delete` per listed URI. -/
def delete_firewall_rules_cmds (uris : List String) : List String :=
  uris.map (fun uri => "echo y | gcloud compute firewall-rules delete " ++ uri)

end E2E

namespace Dns

/-- `RECORD_LENGTH = 20` from `hack/utils/dns.py`. -/
def RECORD_LENGTH : Nat := 20

/-- Python's `string.ascii_lowercase`, the alphabet
`random.choice` draws from in `create_random_domains`. -/
def ascii_lowercase : List Char :=
  ['a', 'b', 'c', 'd', 'e', 'f', 'g', 'h', 'i', 'j', 'k', 'l', 'm',
   'n', 'o', 'p', 'q', 'r', 's', 't', 'u', 'v', 'w', 'x', 'y', 'z']

/-- One draw of `random.choice(string.ascii_lowercase)`; the randomness
source is modelled as a stream of indices into the alphabet. -/
def lowercase_char (i : Fin 26) : Char :=
  ascii_lowercase.get ⟨i.val, i.isLt⟩

/-- One iteration's `record`:
`''.join(random.choice(string.ascii_lowercase) for _ in range(RECORD_LENGTH))`,
consuming draws `offset, offset+1, ...` of the randomness stream. -/
def random_record (rand : Nat → Fin 26) (offset : Nat) : String :=
  ⟨(List.range RECORD_LENGTH).map (fun k => lowercase_char (rand (offset + k)))⟩

/-- The `gcloud dns record-sets transaction` command lines issued by
`create_random_domains`. -/
inductive DnsCmd where
  | txStart (zone : String)
  | txAdd (zone domain ip : String)
  | txExecute (zone : String)
deriving Repr, DecidableEq

/-- `create_random_domains(zone_name)` from `hack/utils/dns.py`.
`ip` is the address resolved once from the
`gcloud compute addresses describe test-ip-address` query; `rand` is the
randomness stream consumed by `random.choice` (iteration `i` consumes
draws `RECORD_LENGTH*i ..< RECORD_LENGTH*(i+1)`).  Returns the two
generated domain names and the transaction command trace: one
`transaction start`, one `transaction add` per domain, one
`transaction execute`. -/
def create_random_domains (zone_name ip : String) (rand : Nat → Fin 26) :
    List String × List DnsCmd :=
  let result := (List.range 2).map (fun i =>
    random_record rand (RECORD_LENGTH * i) ++ "." ++ zone_name ++ ".certsbridge.com")
  (result,
    DnsCmd.txStart zone_name ::
      (result.map (fun domain => DnsCmd.txAdd zone_name domain ip) ++
        [DnsCmd.txExecute zone_name]))

end Dns

namespace E2E

/-- Observation streams for the `test(zone)` phase of `hack/e2e.py`: the
successive values returned by the two `get_ssl_certificates` polls, the
`get_managed_certificate_statuses` poll and the `get_http_statuses`
poll.  (In `get_http_statuses` a failed HTTPS GET contributes no code,
which is absorbed into the observed list.) -/
structure TestEnv where
  ssl1 : Nat → List String
  statuses : Nat → List String
  http : Nat → List Nat
  ssl2 : Nat → List String

/-- Observable events of the `test` phase, in program order. -/
inductive Event where
  | sslCountPoll (target : Nat) (met : Bool)
  | statusPoll (target : List String) (met : Bool)
  | httpPoll (target : List Nat) (met : Bool)
  | annotRemoved (key : String)
  | ingressDeleted
  | managedCertificatesDeleted
deriving Repr, DecidableEq

/-- `expect_ssl_certificates(count)` from `hack/e2e.py`: polls
`get_ssl_certificates` (modelled by its observation stream) with
condition `len(ssl_certificates) == count` and the default budget of 30
attempts; on exhaustion it only prints the re-queried list and returns
normally.  Returns the poll outcome. -/
def expect_ssl_certificates (get_ssl_certificates : Nat → List String)
    (count : Nat) : Bool :=
  (Utils.backoff get_ssl_certificates
    (fun ssl_certificates => ssl_certificates.length == count) 30).met

/-- Outcome of the `statuses == ["Active", "Active"]` poll in `test`
(`max_attempts=50`). -/
def status_poll_met (env : TestEnv) : Bool :=
  (Utils.backoff env.statuses
    (fun statuses => statuses == ["Active", "Active"]) 50).met

/-- Outcome of the `statuses == [200, 200]` poll in `test`
(default budget of 30 attempts). -/
def http_poll_met (env : TestEnv) : Bool :=
  (Utils.backoff env.http (fun statuses => statuses == [200, 200]) 30).met

/-- Result of the `test` phase: `exit = some c` when `sys.exit(c)` was
raised, `none` on normal return, plus the event trace. -/
structure TestRun where
  exit : Option Nat
  events : List Event
deriving Repr, DecidableEq

/-- The `test(zone)` phase of `hack/e2e.py` (convergence checks and the
annotation-removal block; the setup commands before the first poll are
external side effects with no observable outcome here).  The sequence
is: expect 3 SslCertificates, poll statuses against
`["Active", "Active"]` (50 attempts, `sys.exit(1)` on exhaustion), poll
HTTP codes against `[200, 200]` (`sys.exit(1)` on exhaustion), remove
the two ingress annotations, delete the ingress and the
ManagedCertificate objects, then expect 1 SslCertificate. -/
def test (env : TestEnv) : TestRun :=
  let e1 := Event.sslCountPoll 3 (expect_ssl_certificates env.ssl1 3)
  let mS := status_poll_met env
  let eS := Event.statusPoll ["Active", "Active"] mS
  if mS then
    let mH := http_poll_met env
    let eH := Event.httpPoll [200, 200] mH
    if mH then
      let e2 := Event.sslCountPoll 1 (expect_ssl_certificates env.ssl2 1)
      ⟨none, [e1, eS, eH,
        Event.annotRemoved "gke.googleapis.com/managed-certificates",
        Event.annotRemoved "ingress.gcp.kubernetes.io/pre-shared-cert",
        Event.ingressDeleted, Event.managedCertificatesDeleted, e2]⟩
    else ⟨some 1, [e1, eS, eH]⟩
  else ⟨some 1, [e1, eS]⟩

/-- Result of a whole `main()` run: how many `tearDown(zone)` calls
completed before and after the `test` phase, the process exit
(`some c` for `sys.exit(c)`, `none` for a normal zero-status return),
and the `test` event trace. -/
structure RunResult where
  preTearDowns : Nat
  postTearDowns : Nat
  exit : Option Nat
  events : List Event
deriving Repr, DecidableEq

/-- `main()` from `hack/e2e.py`: `init()`, `tearDown(zone)`, `test(zone)`,
`tearDown(zone)`.  A `sys.exit(1)` inside `test` raises `SystemExit`
past `main` — there is no try/finally — so the second `tearDown` call
does not run on that path. -/
def main (env : TestEnv) : RunResult :=
  let t := test env
  match t.exit with
  | some code => ⟨1, 0, some code, t.events⟩
  | none => ⟨1, 1, none, t.events⟩

/-- Replaces the two SslCertificate-count observation streams of an
environment, leaving the status and HTTP streams unchanged. -/
def withSslStreams (env : TestEnv) (f g : Nat → List String) : TestEnv :=
  ⟨f, env.statuses, env.http, g⟩

/-- The targets of the SslCertificate resource-count polls appearing in
an event trace, in order. -/
def sslCountTargets : List Event → List Nat
  | [] => []
  | Event.sslCountPoll target _ :: rest => target :: sslCountTargets rest
  | _ :: rest => sslCountTargets rest

/-- Outcome of running the argparse parser configured in `main()`:
a successful parse yields the final value of the `zone` destination;
`-h`/`--help` prints the help text and exits with status 0; a parse
error prints a usage message and exits with status 2, carrying the
offending argument. -/
inductive ParseOutcome where
  | ok (zone : String)
  | help
  | error (arg : String)
deriving Repr, DecidableEq

/-- The long option strings known to the parser configured in
`main()`: the automatic `--help` and the declared `--zone`. -/
def long_options : List String := ["--help", "--zone"]

/-- Splits an argument at its first `=` (argparse's `--name=value`
form): the part before the `=` and, when an `=` is present, the part
after it. -/
def split_eq : List Char → List Char × Option (List Char)
  | [] => ([], none)
  | c :: rest =>
    if c = '=' then ([], some rest)
    else
      let p := split_eq rest
      (c :: p.1, p.2)

/-- The argparse parser configured in `main()` (`e2e.py:178-180`): one
optional argument `--zone` with destination `zone`, plus the automatic
`-h`/`--help`.  Faithful to argparse's behavior on this configuration:
a long option may be abbreviated to any unambiguous prefix and may
carry its value either as `--name=value` or as the following token; a
token starting with `-` is not consumed as an option value (`--zone`
then lacks its required value); the parser declares no positional
arguments, so any positional — including a lone `--`, which argparse
reports as unrecognized for this configuration — is an error;
`-h`/`--help` shows help immediately.  The second parameter is the
current value of the `zone` destination, so later `--zone` occurrences
override earlier ones. -/
def parse_args : List String → String → ParseOutcome
  | [], zone => ParseOutcome.ok zone
  | t :: rest, _zone =>
    if t.data.take 2 = ['-', '-'] then
      let p := split_eq t.data
      match (long_options.map String.data).filter
          (fun opt => List.isPrefixOf p.1 opt) with
      | [opt] =>
        if opt = "--help".data then
          match p.2 with
          | none => ParseOutcome.help
          | some _ => ParseOutcome.error t
        else
          match p.2 with
          | some v => parse_args rest ⟨v⟩
          | none =>
            match rest with
            | [] => ParseOutcome.error t
            | v :: rest2 =>
              if v.data.take 1 = ['-'] ∧ v ≠ "-" then ParseOutcome.error t
              else parse_args rest2 v
      | _ => ParseOutcome.error t
    else if t = "-h" then ParseOutcome.help
    else ParseOutcome.error t

/-- Parsing the command line in `main()`: the `zone` destination starts
at its default `managedcertsgke`. -/
def main_parse_args (argv : List String) : ParseOutcome :=
  parse_args argv "managedcertsgke"

/-- `init()` from `hack/e2e.py` together with `kubectl.install()`: when
`PROW_TEST` is false (`/etc/service-account/service-account.json`
absent) it returns immediately and issues no commands; otherwise it
activates the service account, configures docker auth, downloads
kubectl 1.11 and sets the default namespace on the current context. -/
def init_cmds (prow_test : Bool) (current_context : String) : List String :=
  if prow_test then
    ["gcloud auth activate-service-account --key-file=/etc/service-account/service-account.json",
     "gcloud auth configure-docker",
     "curl -L -o kubectl1_11 https://storage.googleapis.com/kubernetes-release/release/v1.11.0/bin/linux/amd64/kubectl",
     "chmod +x kubectl1_11",
     "kubectl1_11 config set-context " ++ current_context ++ " --namespace=default"]
  else []

end E2E

namespace Dns

/-- Randomness stream that always draws the first letter of the
alphabet: every `random.choice` returns `a`. -/
def const_rand : Nat → Fin 26 := fun _ => ⟨0, by omega⟩

/-- Randomness stream whose first `RECORD_LENGTH` draws are `a` and
whose later draws are `b`: the two generated records differ. -/
def two_token_rand : Nat → Fin 26 :=
  fun n => if n < RECORD_LENGTH then ⟨0, by omega⟩ else ⟨1, by omega⟩

end Dns

namespace E2E

/-- Environment in which every observation stream is constantly empty:
no SslCertificate is ever listed, no status is ever reported, no HTTP
code is ever obtained, so every poll exhausts its budget. -/
def envNever : TestEnv := ⟨fun _ => [], fun _ => [], fun _ => [], fun _ => []⟩

/-- Environment in which every poll is satisfied on its first attempt:
three SslCertificates are listed before the deletion block and one
after, the statuses are `["Active", "Active"]` and both HTTP codes
are 200. -/
def envGood : TestEnv :=
  ⟨fun _ => ["a", "b", "c"], fun _ => ["Active", "Active"],
   fun _ => [200, 200], fun _ => ["a"]⟩

end E2E

namespace Utils

theorem backoffAux_of_first_true (action : Nat → α) (condition : α → Bool)
    (timeout : Nat) :
    ∀ (j fuel attempt : Nat), j < fuel →
    condition (action (attempt + j)) = true →
    (∀ i, i < j → condition (action (attempt + i)) = false) →
    backoffAux action condition timeout fuel attempt =
      ⟨true, j + 1, List.replicate j timeout⟩ := by
  intro j
  induction j with
  | zero =>
    intro fuel attempt hlt htrue _
    match fuel, hlt with
    | fuel + 1, _ =>
      simp only [backoffAux]
      rw [show attempt + 0 = attempt from rfl] at htrue
      rw [htrue]
      simp
  | succ j ih =>
    intro fuel attempt hlt htrue hfalse
    match fuel, hlt with
    | fuel + 1, hlt =>
      have h0 : condition (action attempt) = false := by
        have := hfalse 0 (Nat.succ_pos j)
        simpa using this
      simp only [backoffAux, h0]
      have htrue' : condition (action (attempt + 1 + j)) = true := by
        have : attempt + 1 + j = attempt + (j + 1) := by omega
        rw [this]; exact htrue
      have hfalse' : ∀ i, i < j → condition (action (attempt + 1 + i)) = false := by
        intro i hi
        have : attempt + 1 + i = attempt + (i + 1) := by omega
        rw [this]
        exact hfalse (i + 1) (by omega)
      rw [ih fuel (attempt + 1) (by omega) htrue' hfalse']
      simp [List.replicate_succ]

theorem backoffAux_of_never_true (action : Nat → α) (condition : α → Bool)
    (timeout : Nat) :
    ∀ (fuel attempt : Nat),
    (∀ i, i < fuel → condition (action (attempt + i)) = false) →
    backoffAux action condition timeout fuel attempt =
      ⟨false, fuel, List.replicate fuel timeout⟩ := by
  intro fuel
  induction fuel with
  | zero => intro attempt _; simp [backoffAux]
  | succ fuel ih =>
    intro attempt hfalse
    have h0 : condition (action attempt) = false := by
      have := hfalse 0 (Nat.succ_pos fuel)
      simpa using this
    simp only [backoffAux, h0]
    have hfalse' : ∀ i, i < fuel → condition (action (attempt + 1 + i)) = false := by
      intro i hi
      have : attempt + 1 + i = attempt + (i + 1) := by omega
      rw [this]
      exact hfalse (i + 1) (by omega)
    rw [ih (attempt + 1) hfalse']
    simp [List.replicate_succ]

theorem backoff_of_first_true (action : Nat → α) (condition : α → Bool)
    (max_attempts k : Nat) (hk : 1 ≤ k) (hle : k ≤ max_attempts)
    (htrue : condition (action (k - 1)) = true)
    (hfalse : ∀ i, i < k - 1 → condition (action i) = false) :
    backoff action condition max_attempts =
      ⟨true, k, List.replicate (k - 1) 30⟩ := by
  have h := backoffAux_of_first_true action condition 30 (k - 1) max_attempts 0
    (by omega) (by simpa using htrue) (by simpa using hfalse)
  rw [backoff, h]
  have : k - 1 + 1 = k := by omega
  rw [this]

theorem backoff_of_never_true (action : Nat → α) (condition : α → Bool)
    (max_attempts : Nat)
    (hfalse : ∀ i, i < max_attempts → condition (action i) = false) :
    backoff action condition max_attempts =
      ⟨false, max_attempts, List.replicate max_attempts 30⟩ := by
  have h := backoffAux_of_never_true action condition 30 max_attempts 0
    (by simpa using hfalse)
  rw [backoff, h]

theorem backoffAux_sleeps_all_timeout (action : Nat → α) (condition : α → Bool)
    (timeout : Nat) :
    ∀ (fuel attempt : Nat),
    (backoffAux action condition timeout fuel attempt).sleeps.all
      (fun s => s == timeout) = true := by
  intro fuel
  induction fuel with
  | zero => intro attempt; simp [backoffAux]
  | succ fuel ih =>
    intro attempt
    simp only [backoffAux]
    by_cases h : condition (action attempt) = true
    · simp [h]
    · rw [Bool.not_eq_true] at h
      simp [h, ih (attempt + 1)]

end Utils

section Helpers

/-- The data of the right operand of a string append is a suffix of the
data of the append. -/
theorem data_suffix_append (a b : String) : b.data <:+ (a ++ b).data := by
  rw [String.data_append]
  exact List.suffix_append a.data b.data

/-- Control-flow characterization of the `test` phase: it raises
`sys.exit 1` exactly when the status poll or the HTTP poll exhausts
its budget; the SslCertificate-count polls never decide the exit. -/
theorem test_exit_characterization (env : E2E.TestEnv) :
    (E2E.test env).exit =
      if E2E.status_poll_met env && E2E.http_poll_met env then none
      else some 1 := by
  by_cases hS : E2E.status_poll_met env
  · by_cases hH : E2E.http_poll_met env
    · simp [E2E.test, hS, hH]
    · rw [Bool.not_eq_true] at hH
      simp [E2E.test, hS, hH]
  · rw [Bool.not_eq_true] at hS
    simp [E2E.test, hS]

end Helpers

/-- Claim C2: for every action, predicate and `max_attempts ≥ 1`, if the
predicate first becomes true on the `k`-th observation with
`k ≤ max_attempts`, `backoff` returns true and invokes the action
exactly `k` times; if the predicate never becomes true within the
budget, `backoff` invokes the action exactly `max_attempts` times and
returns false. -/
theorem backoff_convergence_and_exhaustion {α : Type} (action : Nat → α)
    (condition : α → Bool) (max_attempts k : Nat) :
    (1 ≤ k → k ≤ max_attempts → condition (action (k - 1)) = true →
      (∀ i, i < k - 1 → condition (action i) = false) →
      (Utils.backoff action condition max_attempts).met = true ∧
      (Utils.backoff action condition max_attempts).calls = k) ∧
    ((∀ i, i < max_attempts → condition (action i) = false) →
      (Utils.backoff action condition max_attempts).met = false ∧
      (Utils.backoff action condition max_attempts).calls = max_attempts) := by
  constructor
  · intro hk hle htrue hfalse
    rw [Utils.backoff_of_first_true action condition max_attempts k hk hle htrue hfalse]
    exact ⟨rfl, rfl⟩
  · intro hfalse
    rw [Utils.backoff_of_never_true action condition max_attempts hfalse]
    exact ⟨rfl, rfl⟩

/-- Witness for C2: with the identity action and the condition `n == 2`
the predicate first holds on the third observation, so a budget of 5
gives 3 calls and success; with a never-true condition a budget of 4
gives 4 calls and failure. -/
theorem backoff_convergence_and_exhaustion_witness :
    ((Utils.backoff (fun n : Nat => n) (fun n => n == 2) 5).met = true ∧
     (Utils.backoff (fun n : Nat => n) (fun n => n == 2) 5).calls = 3) ∧
    ((Utils.backoff (fun n : Nat => n) (fun _ => false) 4).met = false ∧
     (Utils.backoff (fun n : Nat => n) (fun _ => false) 4).calls = 4) := by
  constructor
  · exact (backoff_convergence_and_exhaustion (fun n : Nat => n)
      (fun n => n == 2) 5 3).1 (by omega) (by omega) (by decide)
      (by intro i hi; interval_cases i <;> rfl)
  · exact (backoff_convergence_and_exhaustion (fun n : Nat => n)
      (fun _ => false) 4 0).2 (by intro i _; rfl)

/-- Counterexample to claim C3: `backoff` has no exponential delay
policy.  In an exhausted 3-attempt run the recorded sleeps are
`[30, 30, 30]`; no seed `d` makes this schedule the doubling schedule
`[d, d·2, d·4]`. -/
theorem backoff_no_exponential_delay_cex :
    (Utils.backoff (fun n : Nat => n) (fun _ => false) 3).sleeps = [30, 30, 30] ∧
    ¬ ∃ d : Nat, (Utils.backoff (fun n : Nat => n) (fun _ => false) 3).sleeps =
        [d, d * 2, d * 4] := by
  have h30 : (Utils.backoff (fun n : Nat => n) (fun _ => false) 3).sleeps =
      [30, 30, 30] := by decide
  refine ⟨h30, ?_⟩
  rintro ⟨d, h⟩
  rw [h30] at h
  simp only [List.cons.injEq, and_true] at h
  omega

/-- Claim C3 as amended: `backoff` supports only a fixed constant-delay
policy — every sleep it performs, in every invocation, is the constant
30 seconds. -/
theorem backoff_fixed_delay_only {α : Type} (action : Nat → α)
    (condition : α → Bool) (max_attempts : Nat) :
    (Utils.backoff action condition max_attempts).sleeps.all
      (fun s => s == 30) = true :=
  Utils.backoffAux_sleeps_all_timeout action condition 30 max_attempts 0

/-- Counterexample to claim C4: an exhausted run of 3 attempts performs
3 sleeps, not `3 - 1 = 2` — `backoff` also sleeps after the final
failed attempt. -/
theorem backoff_sleeps_after_last_attempt_cex :
    (Utils.backoff (fun n : Nat => n) (fun _ => false) 3).calls = 3 ∧
    (Utils.backoff (fun n : Nat => n) (fun _ => false) 3).sleeps.length = 3 ∧
    (Utils.backoff (fun n : Nat => n) (fun _ => false) 3).sleeps.length ≠ 3 - 1 := by
  decide

/-- Claim C4 as amended: a run satisfied on the `k`-th observation
sleeps only between attempts (`k - 1` sleeps of 30 s, none after the
satisfying attempt), but an exhausted run of `max_attempts` attempts
performs exactly `max_attempts` sleeps — including one after the final
failed attempt. -/
theorem backoff_sleep_counts {α : Type} (action : Nat → α)
    (condition : α → Bool) (max_attempts k : Nat) :
    (1 ≤ k → k ≤ max_attempts → condition (action (k - 1)) = true →
      (∀ i, i < k - 1 → condition (action i) = false) →
      (Utils.backoff action condition max_attempts).sleeps =
        List.replicate (k - 1) 30) ∧
    ((∀ i, i < max_attempts → condition (action i) = false) →
      (Utils.backoff action condition max_attempts).sleeps =
        List.replicate max_attempts 30) := by
  constructor
  · intro hk hle htrue hfalse
    rw [Utils.backoff_of_first_true action condition max_attempts k hk hle htrue hfalse]
  · intro hfalse
    rw [Utils.backoff_of_never_true action condition max_attempts hfalse]

/-- Witness for the amended C4: satisfaction on the third of 5 attempts
yields 2 sleeps; exhaustion of 4 attempts yields 4 sleeps. -/
theorem backoff_sleep_counts_witness :
    (Utils.backoff (fun n : Nat => n) (fun n => n == 2) 5).sleeps =
      List.replicate 2 30 ∧
    (Utils.backoff (fun n : Nat => n) (fun _ => false) 4).sleeps =
      List.replicate 4 30 := by
  constructor
  · exact (backoff_sleep_counts (fun n : Nat => n) (fun n => n == 2) 5 3).1
      (by omega) (by omega) (by decide) (by intro i hi; interval_cases i <;> rfl)
  · exact (backoff_sleep_counts (fun n : Nat => n) (fun _ => false) 4 0).2
      (by intro i _; rfl)

/-- Counterexample to claim C1: in the environment where no poll ever
converges, the status-sequence poll exhausts its budget and the run
terminates with exit code 1, but the post-test teardown does NOT
execute — `sys.exit(1)` propagates past the final `tearDown` call of
`main`, which is not protected by any finally. -/
theorem main_failure_no_post_teardown_cex :
    (E2E.main E2E.envNever).exit = some 1 ∧
    (E2E.main E2E.envNever).postTearDowns = 0 := by
  decide

/-- Claim C1 as amended: when the status-sequence poll or the
HTTP-status poll exhausts its attempt budget, the run terminates with
exit code 1; the pre-test teardown has run, but the post-test teardown
does not execute — there is no finally-style guarantee, cleanup is left
to the unconditional pre-test teardown of the next run. -/
theorem main_failure_skips_post_teardown (env : E2E.TestEnv)
    (h : E2E.status_poll_met env = false ∨ E2E.http_poll_met env = false) :
    (E2E.main env).exit = some 1 ∧
    (E2E.main env).preTearDowns = 1 ∧
    (E2E.main env).postTearDowns = 0 := by
  have hexit : (E2E.test env).exit = some 1 := by
    rw [test_exit_characterization]
    rcases h with h | h <;> simp [h]
  simp [E2E.main, hexit]

/-- Witness for the amended C1: in the never-converging environment the
process exits 1 after one pre-test teardown and zero post-test
teardowns. -/
theorem main_failure_skips_post_teardown_witness :
    (E2E.main E2E.envNever).exit = some 1 ∧
    (E2E.main E2E.envNever).preTearDowns = 1 ∧
    (E2E.main E2E.envNever).postTearDowns = 0 :=
  main_failure_skips_post_teardown E2E.envNever (Or.inl (by decide))

/-- Claim C5: deletes are idempotent for every resource kind — every
manifest delete issued by `kubectl.delete` carries
`--ignore-not-found=true`, and each list-then-delete-each deletion
(SslCertificates, ManagedCertificate objects, firewall rules) issues no
delete command when the listing is empty. -/
theorem deletes_are_idempotent :
    (∀ (prow_test : Bool) (script_root : String) (file_names : List String)
        (c : String), c ∈ Kubectl.delete_cmds prow_test script_root file_names →
        "--ignore-not-found=true".data <:+ c.data) ∧
    E2E.delete_ssl_certificates_cmds [] = [] ∧
    (∀ (prow_test success : Bool),
        E2E.delete_managed_certificates_cmds prow_test [] success = []) ∧
    E2E.delete_firewall_rules_cmds [] = [] := by
  refine ⟨?_, rfl, ?_, rfl⟩
  · intro prow_test script_root file_names c hc
    simp only [Kubectl.delete_cmds, List.mem_map] at hc
    obtain ⟨file_name, -, rfl⟩ := hc
    have h1 : ("--ignore-not-found=true" : String).data <:+
        (" --ignore-not-found=true" : String).data := ⟨[' '], by decide⟩
    have h2 := data_suffix_append
      ("delete -f " ++ script_root ++ "/deploy/" ++ file_name)
      " --ignore-not-found=true"
    have h3 := data_suffix_append (Kubectl.kubectl_name prow_test ++ " ")
      ("delete -f " ++ script_root ++ "/deploy/" ++ file_name ++
        " --ignore-not-found=true")
    exact h1.trans (h2.trans h3)
  · intro prow_test success
    cases success <;> rfl

/-- Witness for C5: the single-file call
`kubectl.delete(root, "a.yaml")` produces a command carrying the
ignore-not-found flag, so deleting the absent manifest still succeeds. -/
theorem deletes_are_idempotent_witness :
    "--ignore-not-found=true".data <:+
      ("kubectl delete -f root/deploy/a.yaml --ignore-not-found=true" : String).data :=
  deletes_are_idempotent.1 false "root" ["a.yaml"]
    "kubectl delete -f root/deploy/a.yaml --ignore-not-found=true" (by decide)

/-- Counterexample to claim C6: in the environment where every poll
converges, the SslCertificate resource-count polls of the `test` phase
target 3 and then 1 — the post-setup poll targets 3 (the two managed
certificates plus the additional user-created certificate), never 2. -/
theorem test_count_targets_cex :
    E2E.sslCountTargets (E2E.test E2E.envGood).events = [3, 1] ∧
    2 ∉ E2E.sslCountTargets (E2E.test E2E.envGood).events := by
  decide

/-- Claim C6 as amended: whenever the status and HTTP polls converge,
the `test` phase polls the SslCertificate resource count with target 3
after setup, then — after removing the two ingress annotations and
deleting the ingress and the ManagedCertificate objects — with
target 1; the status-sequence poll compares the observed statuses
against exactly `["Active", "Active"]`. -/
theorem test_phase_checks (env : E2E.TestEnv)
    (hS : E2E.status_poll_met env = true)
    (hH : E2E.http_poll_met env = true) :
    (E2E.test env).events =
      [E2E.Event.sslCountPoll 3 (E2E.expect_ssl_certificates env.ssl1 3),
       E2E.Event.statusPoll ["Active", "Active"] true,
       E2E.Event.httpPoll [200, 200] true,
       E2E.Event.annotRemoved "gke.googleapis.com/managed-certificates",
       E2E.Event.annotRemoved "ingress.gcp.kubernetes.io/pre-shared-cert",
       E2E.Event.ingressDeleted,
       E2E.Event.managedCertificatesDeleted,
       E2E.Event.sslCountPoll 1 (E2E.expect_ssl_certificates env.ssl2 1)] := by
  simp [E2E.test, hS, hH]

/-- Witness for the amended C6: the event trace in the everywhere-
converging environment. -/
theorem test_phase_checks_witness :
    (E2E.test E2E.envGood).events =
      [E2E.Event.sslCountPoll 3 (E2E.expect_ssl_certificates E2E.envGood.ssl1 3),
       E2E.Event.statusPoll ["Active", "Active"] true,
       E2E.Event.httpPoll [200, 200] true,
       E2E.Event.annotRemoved "gke.googleapis.com/managed-certificates",
       E2E.Event.annotRemoved "ingress.gcp.kubernetes.io/pre-shared-cert",
       E2E.Event.ingressDeleted,
       E2E.Event.managedCertificatesDeleted,
       E2E.Event.sslCountPoll 1 (E2E.expect_ssl_certificates E2E.envGood.ssl2 1)] :=
  test_phase_checks E2E.envGood (by decide) (by decide)

/-- Counterexample to claim C7: distinctness of the two generated
domains is not guaranteed.  When every `random.choice` draw returns the
same letter, `create_random_domains` returns two equal domain strings. -/
theorem create_random_domains_collision_cex :
    (Dns.create_random_domains "z" "1.2.3.4" Dns.const_rand).1.length = 2 ∧
    ¬ (Dns.create_random_domains "z" "1.2.3.4" Dns.const_rand).1.Nodup := by
  decide

/-- Claim C7 as amended: `create_random_domains(zone)` returns exactly
2 domain strings, each a 20-character lowercase-letter token followed
by `"." ++ zone ++ ".certsbridge.com"`, all added between one single
`transaction start` and one `transaction execute` bound to the resolved
test IP; the two domains are distinct whenever the two random tokens
differ (equal random draws yield equal domains). -/
theorem create_random_domains_spec (zone_name ip : String)
    (rand : Nat → Fin 26) :
    (Dns.create_random_domains zone_name ip rand).1.length = 2 ∧
    (∀ d ∈ (Dns.create_random_domains zone_name ip rand).1,
      ∃ record : String,
        d = record ++ "." ++ zone_name ++ ".certsbridge.com" ∧
        record.length = Dns.RECORD_LENGTH ∧
        ∀ c ∈ record.data, c ∈ Dns.ascii_lowercase) ∧
    ((Dns.create_random_domains zone_name ip rand).2 =
      Dns.DnsCmd.txStart zone_name ::
        ((Dns.create_random_domains zone_name ip rand).1.map
            (fun domain => Dns.DnsCmd.txAdd zone_name domain ip) ++
          [Dns.DnsCmd.txExecute zone_name])) ∧
    (Dns.random_record rand 0 ≠ Dns.random_record rand Dns.RECORD_LENGTH →
      (Dns.create_random_domains zone_name ip rand).1.Nodup) := by
  refine ⟨by simp [Dns.create_random_domains], ?_, rfl, ?_⟩
  · intro d hd
    simp only [Dns.create_random_domains, List.mem_map, List.mem_range] at hd
    obtain ⟨i, -, rfl⟩ := hd
    refine ⟨Dns.random_record rand (Dns.RECORD_LENGTH * i), rfl, ?_, ?_⟩
    · simp [Dns.random_record, String.length_mk, Dns.RECORD_LENGTH]
    · intro c hc
      simp only [Dns.random_record, List.mem_map] at hc
      obtain ⟨k, -, rfl⟩ := hc
      exact List.get_mem _ _ _
  · intro hne
    have hlist : (Dns.create_random_domains zone_name ip rand).1 =
        [Dns.random_record rand 0 ++ "." ++ zone_name ++ ".certsbridge.com",
         Dns.random_record rand Dns.RECORD_LENGTH ++ "." ++ zone_name ++
           ".certsbridge.com"] := by
      simp [Dns.create_random_domains, List.range_succ]
    rw [hlist]
    refine List.nodup_cons.mpr ⟨?_, List.nodup_singleton _⟩
    simp only [List.mem_singleton]
    intro heq
    apply hne
    have hd := congrArg String.data heq
    simp only [String.data_append] at hd
    exact String.ext (List.append_cancel_right (List.append_cancel_right
      (List.append_cancel_right hd)))

/-- Witness for the amended C7: with a randomness stream whose first
token is all `a` and second all `b`, the first returned domain has the
required shape and the two domains are distinct. -/
theorem create_random_domains_spec_witness :
    (Dns.create_random_domains "z" "1.2.3.4" Dns.two_token_rand).1.length = 2 ∧
    (∃ record : String,
      "aaaaaaaaaaaaaaaaaaaa.z.certsbridge.com" =
        record ++ "." ++ "z" ++ ".certsbridge.com" ∧
      record.length = Dns.RECORD_LENGTH ∧
      ∀ c ∈ record.data, c ∈ Dns.ascii_lowercase) ∧
    (Dns.create_random_domains "z" "1.2.3.4" Dns.two_token_rand).1.Nodup := by
  have h := create_random_domains_spec "z" "1.2.3.4" Dns.two_token_rand
  exact ⟨h.1, h.2.1 "aaaaaaaaaaaaaaaaaaaa.z.certsbridge.com" (by decide),
    h.2.2.2 (by decide)⟩

/-- Counterexample to claim C8: the CLI entry point has no `--noinit`
flag — `--noinit` matches no prefix of `--zone` or `--help`, so the
parser configured in `main()` rejects it as unrecognized (usage error,
exit status 2) instead of skipping the Init phase. -/
theorem cli_rejects_noinit_cex :
    E2E.main_parse_args ["--noinit"] = E2E.ParseOutcome.error "--noinit" := by
  decide

/-- Claim C8 as amended: the CLI entry point accepts a `--zone` flag
with default zone name `managedcertsgke` (in argparse's usual forms:
`--zone VALUE`, `--zone=VALUE` and unambiguous prefix abbreviations
such as `--zo`, besides the automatic `-h`/`--help`); it has no
`--noinit`/init-skip flag — `--noinit` is rejected as unrecognized —
and the Init phase is instead skipped when the Prow service-account
file is absent, in which case `init` issues no commands. -/
theorem cli_surface (zone current_context : String)
    (h : zone.data.take 1 ≠ ['-']) :
    E2E.main_parse_args [] = E2E.ParseOutcome.ok "managedcertsgke" ∧
    E2E.main_parse_args ["--zone", zone] = E2E.ParseOutcome.ok zone ∧
    E2E.main_parse_args ["--zone=abc"] = E2E.ParseOutcome.ok "abc" ∧
    E2E.main_parse_args ["--zo", "xyz"] = E2E.ParseOutcome.ok "xyz" ∧
    E2E.main_parse_args ["-h"] = E2E.ParseOutcome.help ∧
    E2E.main_parse_args ["--help"] = E2E.ParseOutcome.help ∧
    E2E.main_parse_args ["--noinit"] = E2E.ParseOutcome.error "--noinit" ∧
    E2E.init_cmds false current_context = [] := by
  refine ⟨by decide, ?_, by decide, by decide, by decide, by decide, by decide, rfl⟩
  have h2 : ¬(zone.data.take 1 = ['-'] ∧ zone ≠ "-") := fun hc => h hc.1
  have hstep : E2E.main_parse_args ["--zone", zone] =
      if zone.data.take 1 = ['-'] ∧ zone ≠ "-" then
        E2E.ParseOutcome.error "--zone"
      else E2E.parse_args [] zone := rfl
  rw [hstep, if_neg h2]
  rfl

/-- Witness for the amended C8: a value that does not start with a
dash is accepted by the `--zone VALUE` form. -/
theorem cli_surface_witness :
    E2E.main_parse_args ["--zone", "myzone"] = E2E.ParseOutcome.ok "myzone" ∧
    E2E.main_parse_args ["--zone=abc"] = E2E.ParseOutcome.ok "abc" ∧
    E2E.main_parse_args ["-h"] = E2E.ParseOutcome.help := by
  have h := cli_surface "myzone" "ctx" (by decide)
  exact ⟨h.2.1, h.2.2.1, h.2.2.2.2.1⟩

/-- Claim C9: for every captured standard output and exit status,
`call_get_out` returns the output split on newline with all empty lines
removed, and a success flag that is true exactly when the exit status
is zero. -/
theorem call_get_out_spec (stdout : String) (returncode : Int) :
    ['\n'].intercalate (stdout.data.splitOn '\n') = stdout.data ∧
    (∀ line ∈ (Command.call_get_out stdout returncode).1,
      line ≠ "" ∧ line.data ∈ stdout.data.splitOn '\n') ∧
    (∀ piece ∈ stdout.data.splitOn '\n', piece ≠ [] →
      (⟨piece⟩ : String) ∈ (Command.call_get_out stdout returncode).1) ∧
    ((Command.call_get_out stdout returncode).2 = true ↔ returncode = 0) := by
  refine ⟨List.intercalate_splitOn stdout.data '\n', ?_, ?_, ?_⟩
  · intro line hline
    have h := List.mem_filter.mp hline
    obtain ⟨piece, hpiece, rfl⟩ := List.mem_map.mp h.1
    refine ⟨by simpa using h.2, hpiece⟩
  · intro piece hpiece hne
    refine List.mem_filter.mpr ⟨List.mem_map.mpr ⟨piece, hpiece, rfl⟩, ?_⟩
    simp only [bne_iff_ne, ne_eq]
    intro h
    exact hne (congrArg String.data h)
  · simp [Command.call_get_out]

/-- Witness for C9: the output `"a\n\nb"` with exit status 0 yields the
lines `["a", "b"]` (the empty middle line dropped), the line `"a"` is a
nonempty piece of the newline split, and the flag reports success. -/
theorem call_get_out_spec_witness :
    (Command.call_get_out "a\n\nb" 0).1 = ["a", "b"] ∧
    (("a" : String) ≠ "" ∧
      ("a" : String).data ∈ ("a\n\nb" : String).data.splitOn '\n') ∧
    ((Command.call_get_out "a\n\nb" 0).2 = true ↔ (0 : Int) = 0) := by
  have h := call_get_out_spec "a\n\nb" 0
  exact ⟨by decide, h.2.1 "a" (by decide), h.2.2.2⟩

/-- Claim C10: exhaustion of an SslCertificate resource-count poll never
terminates the run — `test` raises `sys.exit 1` exactly when the
status-sequence poll or the HTTP-status poll fails, its exit is
otherwise `none`, the exit is unchanged under arbitrary replacement of
the two resource-count observation streams, and the run always proceeds
past the first count poll to the status poll. -/
theorem count_poll_exhaustion_nonfatal (env : E2E.TestEnv) :
    ((E2E.test env).exit = none ↔
      E2E.status_poll_met env = true ∧ E2E.http_poll_met env = true) ∧
    ((E2E.test env).exit ≠ none → (E2E.test env).exit = some 1) ∧
    (∀ f g, (E2E.test (E2E.withSslStreams env f g)).exit = (E2E.test env).exit) ∧
    ((E2E.test env).events.take 2 =
      [E2E.Event.sslCountPoll 3 (E2E.expect_ssl_certificates env.ssl1 3),
       E2E.Event.statusPoll ["Active", "Active"] (E2E.status_poll_met env)]) := by
  have hSw : ∀ f g, E2E.status_poll_met (E2E.withSslStreams env f g) =
      E2E.status_poll_met env := fun _ _ => rfl
  have hHw : ∀ f g, E2E.http_poll_met (E2E.withSslStreams env f g) =
      E2E.http_poll_met env := fun _ _ => rfl
  refine ⟨?_, ?_, ?_, ?_⟩
  · rw [test_exit_characterization]
    by_cases hS : E2E.status_poll_met env <;>
      by_cases hH : E2E.http_poll_met env <;> simp [hS, hH]
  · rw [test_exit_characterization]
    by_cases hS : E2E.status_poll_met env <;>
      by_cases hH : E2E.http_poll_met env <;> simp [hS, hH]
  · intro f g
    rw [test_exit_characterization, test_exit_characterization, hSw, hHw]
  · by_cases hS : E2E.status_poll_met env
    · by_cases hH : E2E.http_poll_met env
      · simp [E2E.test, hS, hH]
      · rw [Bool.not_eq_true] at hH
        simp [E2E.test, hS, hH]
    · rw [Bool.not_eq_true] at hS
      simp [E2E.test, hS]

/-- Witness for C10: in the never-converging environment the first
count poll exhausts, yet the trace still reaches the status poll, whose
exhaustion is what produces the exit code 1. -/
theorem count_poll_exhaustion_nonfatal_witness :
    (E2E.test E2E.envNever).exit = some 1 ∧
    (E2E.test E2E.envNever).events.take 2 =
      [E2E.Event.sslCountPoll 3 (E2E.expect_ssl_certificates E2E.envNever.ssl1 3),
       E2E.Event.statusPoll ["Active", "Active"]
         (E2E.status_poll_met E2E.envNever)] := by
  have h := count_poll_exhaustion_nonfatal E2E.envNever
  exact ⟨h.2.1 (by decide), h.2.2.2⟩
